import Mathlib

/-!
Shallow embedding of the reIndexer quantitative engine
(src/reIndexer: backtest/util.py, backtest/bookkeeping.py,
backtest/zipline_backtest.py, portfolio/minvar.py,
synthetic_etf/price_weighted.py), together with theorems checking the
claims of the natural-language specification against the code.
-/

namespace ReIndexer

/-! Calendar dates as seen by the scheduler: pandas Timestamps expose
`day` (day of month, 1-based), `month` (1..12) and `weekday_name`
(an English weekday name such as "Friday"). -/

structure Date where
  day : Nat
  month : Nat
  weekday : String
deriving DecidableEq

/-- Trigger specification from cfg.py: a day name (or the wildcard "*")
and a week-of-month number (1-based). -/
structure TriggerSpec where
  day : String
  week : Nat
deriving DecidableEq

/-- Mutable scheduler state from Utilities.__init__ (backtest/util.py):
the stored last-fired months for the two trigger kinds, both
initialized to 0. -/
structure Utilities where
  last_month_restructure : Nat
  last_month_rebalance : Nat
deriving DecidableEq

def Utilities.start : Utilities := ⟨0, 0⟩

/-- Embedding of Utilities.isRestructureTriggered (backtest/util.py lines
32-71).  The week window bounds are `(week-1)*7` exclusive below and
`week*7` inclusive above, as computed in Utilities.__init__.  Inside the
window, the flag is the weekday-name comparison; the wildcard branch
overrides it to true when the stored last-fired month differs from the
current month, and then updates that stored month.  Returns the flag and
the (possibly updated) state. -/
def isRestructureTriggered (spec : TriggerSpec) (u : Utilities) (d : Date) :
    Bool × Utilities :=
  let week_start := (spec.week - 1) * 7
  let week_end := spec.week * 7
  if week_start < d.day ∧ d.day ≤ week_end then
    let is_triggered := d.weekday == spec.day
    if spec.day == "*" ∧ u.last_month_restructure ≠ d.month then
      (true, { u with last_month_restructure := d.month })
    else
      (is_triggered, u)
  else
    (false, u)

/-- Embedding of Utilities.isRebalanceTriggered (backtest/util.py lines
73-112); identical logic to the restructure trigger but reading the
rebalance trigger spec and the rebalance last-fired-month field. -/
def isRebalanceTriggered (spec : TriggerSpec) (u : Utilities) (d : Date) :
    Bool × Utilities :=
  let week_start := (spec.week - 1) * 7
  let week_end := spec.week * 7
  if week_start < d.day ∧ d.day ≤ week_end then
    let is_triggered := d.weekday == spec.day
    if spec.day == "*" ∧ u.last_month_rebalance ≠ d.month then
      (true, { u with last_month_rebalance := d.month })
    else
      (is_triggered, u)
  else
    (false, u)

/-- Evaluate the rebalance trigger on a list of dates in order, threading
the scheduler state, and collect the returned flags. -/
def runRebalance (spec : TriggerSpec) : Utilities → List Date → List Bool
  | _, [] => []
  | u, d :: ds =>
    let r := isRebalanceTriggered spec u d
    r.1 :: runRebalance spec r.2 ds

/-! Synthetic price-weighted ETF (synthetic_etf/price_weighted.py).
Exact rational arithmetic stands in for numpy floating point; the weight
computation `prices / prices.sum()` is the elementwise division below. -/

/-- Weight computation of PriceWeightedETF.updateWeights (lines 46-71):
current component prices normalized by their sum. -/
def updateWeights (current_asset_prices : List ℚ) : List ℚ :=
  current_asset_prices.map (fun p => p / current_asset_prices.sum)

/-- Per-instance state touched by PriceWeightedETF.updateWeights: the
ticker list and the two bindings `alloc_weights` (vector) and
`alloc_weights_dict` (ticker-to-weight pairs). -/
structure ETFState where
  tickers : List String
  alloc_weights : List ℚ
  alloc_weights_dict : List (String × ℚ)
deriving DecidableEq

/-- Stateful form of PriceWeightedETF.updateWeights: recomputes the
allocation from the supplied current prices, overwrites both bindings,
and returns the new weights alongside the new state. -/
def ETFState.updateWeightsS (s : ETFState) (current_asset_prices : List ℚ) :
    ETFState × List ℚ :=
  let w := updateWeights current_asset_prices
  ({ s with alloc_weights := w, alloc_weights_dict := s.tickers.zip w }, w)

/-! IEEE-style float values for the data-integrity analysis of
PriceWeightedETF.updateParameters: a value is either a finite rational,
NaN, or a signed infinity.  The arithmetic below follows IEEE-754
special-value rules for the operations the code performs (sum, division,
products, dot products, log, differences, variance). -/

inductive FVal where
  | fin (q : ℚ)
  | nan
  | inf
  | ninf
deriving DecidableEq

namespace FVal

def isNan : FVal → Bool
  | nan => true
  | _ => false

def isFinite : FVal → Bool
  | fin _ => true
  | _ => false

def neg : FVal → FVal
  | fin q => fin (-q)
  | nan => nan
  | inf => ninf
  | ninf => inf

def add : FVal → FVal → FVal
  | nan, _ => nan
  | _, nan => nan
  | inf, ninf => nan
  | ninf, inf => nan
  | inf, _ => inf
  | _, inf => inf
  | ninf, _ => ninf
  | _, ninf => ninf
  | fin a, fin b => fin (a + b)

def sub (a b : FVal) : FVal := add a (neg b)

def mul : FVal → FVal → FVal
  | nan, _ => nan
  | _, nan => nan
  | fin a, fin b => fin (a * b)
  | fin a, inf => if 0 < a then inf else if a < 0 then ninf else nan
  | inf, fin a => if 0 < a then inf else if a < 0 then ninf else nan
  | fin a, ninf => if 0 < a then ninf else if a < 0 then inf else nan
  | ninf, fin a => if 0 < a then ninf else if a < 0 then inf else nan
  | inf, inf => inf
  | ninf, ninf => inf
  | inf, ninf => ninf
  | ninf, inf => ninf

def div : FVal → FVal → FVal
  | nan, _ => nan
  | _, nan => nan
  | fin a, fin b =>
    if b = 0 then (if a = 0 then nan else if 0 < a then inf else ninf)
    else fin (a / b)
  | fin _, inf => fin 0
  | fin _, ninf => fin 0
  | inf, fin b => if b < 0 then ninf else inf
  | ninf, fin b => if b < 0 then inf else ninf
  | inf, inf => nan
  | inf, ninf => nan
  | ninf, inf => nan
  | ninf, ninf => nan

/-- numpy-style sum: fold addition starting from 0. -/
def sum (l : List FVal) : FVal := l.foldl add (fin 0)

/-- numpy dot product: sum of elementwise products. -/
def dot (a b : List FVal) : FVal := sum (List.zipWith mul a b)

/-- numpy log on special values; on positive finite inputs the value is
given by the abstract table `flog` (real logarithms are not rational). -/
def log (flog : ℚ → ℚ) : FVal → FVal
  | nan => nan
  | inf => inf
  | ninf => nan
  | fin q => if 0 < q then fin (flog q) else if q = 0 then ninf else nan

end FVal

/-- Forward fill of NaN entries in one column, carrying the last valid
value (pandas fillna with method ffill). -/
def ffillFrom : Option FVal → List FVal → List FVal
  | _, [] => []
  | prev, x :: xs =>
    if x.isNan then
      match prev with
      | some v => v :: ffillFrom prev xs
      | none => x :: ffillFrom prev xs
    else x :: ffillFrom (some x) xs

def ffillCol (col : List FVal) : List FVal := ffillFrom none col

/-- Backward fill of NaN entries in one column (pandas fillna with method
bfill): forward fill of the reversed column. -/
def bfillCol (col : List FVal) : List FVal := (ffillCol col.reverse).reverse

/-- Transpose of a table with rows of equal length (the DataFrame shape
guaranteed by the history interface). -/
def transposeT : List (List FVal) → List (List FVal)
  | [] => []
  | [r] => r.map (fun x => [x])
  | r :: rest => List.zipWith List.cons r (transposeT rest)

/-- Columnwise backward fill followed by forward fill on a row-major
price table, as in updateParameters lines 198-199. -/
def fillna (rows : List (List FVal)) : List (List FVal) :=
  transposeT ((transposeT rows).map (fun col => ffillCol (bfillCol col)))

/-- The per-bar reweight of updateParameters line 208: the prices of the
bar normalized by their sum, in float arithmetic. -/
def reweight (row : List FVal) : List FVal :=
  row.map (fun p => FVal.div p (FVal.sum row))

/-- The bar-by-bar walk of updateParameters lines 202-214: evaluate the
restructure trigger on the date of each bar (threading the Utilities state),
recompute the active allocation on triggered bars and on the first bar,
and record the dot product of the active allocation with the raw prices
of the bar as the synthetic index level of that bar. -/
def setfWalk (spec : TriggerSpec) :
    Utilities → Bool → List FVal → List (Date × List FVal) → List FVal
  | _, _, _, [] => []
  | u, first_run, alloc, (d, row) :: rest =>
    let tr := isRestructureTriggered spec u d
    let alloc2 := if tr.1 || first_run then reweight row else alloc
    FVal.dot alloc2 row :: setfWalk spec tr.2 false alloc2 rest

/-- Synthetic index levels computed by updateParameters over the filled
historical window. -/
def setfPricesOf (spec : TriggerSpec) (u : Utilities)
    (hist : List (Date × List FVal)) : List FVal :=
  setfWalk spec u true [] ((hist.map Prod.fst).zip (fillna (hist.map Prod.snd)))

/-- numpy diff: successive differences. -/
def diffF (l : List FVal) : List FVal := List.zipWith FVal.sub l.tail l

/-- numpy mean: sum divided by length. -/
def meanF (l : List FVal) : FVal := FVal.div (FVal.sum l) (FVal.fin l.length)

/-- numpy population variance: mean of squared deviations from the mean. -/
def varF (l : List FVal) : FVal :=
  meanF (l.map (fun x => FVal.mul (FVal.sub x (meanF l)) (FVal.sub x (meanF l))))

/-- Quantities bound by updateParameters on successful completion
(lines 220-231). -/
structure ETFParams where
  setf_prices : List FVal
  log_rets : List FVal
  period_log_ret : FVal
  variance : FVal
deriving DecidableEq

/-- Embedding of PriceWeightedETF.updateParameters (lines 180-231):
fill the historical window, walk it to produce the synthetic index
levels, raise when any level is NaN (`np.isnan` count check, line 216),
and otherwise bind the log-return series, the period log return (their
sum), and the population variance. -/
def updateParameters (flog : ℚ → ℚ) (spec : TriggerSpec) (u : Utilities)
    (hist : List (Date × List FVal)) : Except String ETFParams :=
  let setf_prices := setfPricesOf spec u hist
  if setf_prices.any FVal.isNan then
    .error "NA values detected in Synthetic ETF prices"
  else
    let log_rets := diffF (setf_prices.map (FVal.log flog))
    .ok { setf_prices := setf_prices, log_rets := log_rets,
          period_log_ret := FVal.sum log_rets, variance := varF log_rets }

/-! Orchestration and bookkeeping (backtest/zipline_backtest.py,
backtest/bookkeeping.py).  The observable effects of one simulated step
are modelled as an event trace; a Python TypeError from a bad keyword
call is an error result. -/

inductive Event where
  | updateParams (sector : String)
  | getLogReturns (sector : String)
  | computeWeightsCall
  | updatePositions
  | getCurrentPrice (sector : String)
  | updateWeightsCall (sector : String)
  | recordRestructureLog
  | recordRebalanceLog
  | recordCleanLog
deriving DecidableEq

/-- Parameter names of Bookkeeping.restructureLog (bookkeeping.py line
43), excluding self; none of them has a default value. -/
def restructureLog_params : List String :=
  ["context", "zipline_data", "old_weights", "new_weights"]

/-- Keyword names used at the only call site of restructureLog
(zipline_backtest.py lines 237-241). -/
def restructureETF_log_kwargs : List String :=
  ["context", "zipline_data", "old_prices"]

/-- Python keyword-argument binding succeeds when every supplied keyword
names a parameter and every parameter without a default is supplied. -/
def kwargsBind (params kwargs : List String) : Bool :=
  kwargs.all (fun k => params.contains k) &&
    params.all (fun p => kwargs.contains p)

/-- Event trace of Backtest.rebalancePortfolio (zipline_backtest.py lines
155-201): refresh the parameters of each sector, collect the log returns
of each sector, run the optimizer, and optionally update positions.  No
bookkeeping call and no old-weights snapshot appear in the body. -/
def rebalancePortfolio (sectors : List String) (update_positions : Bool) :
    List Event :=
  (sectors.map Event.updateParams) ++ (sectors.map Event.getLogReturns) ++
    [Event.computeWeightsCall] ++
    (if update_positions then [Event.updatePositions] else [])

/-- Event trace of Backtest.restructureETF (zipline_backtest.py lines
203-241): snapshot current ETF prices, update the weights of each sector,
optionally update positions, and, when logging is requested, call
restructureLog with the keywords written at the call site; the call is a
TypeError when those keywords do not bind the parameters of
restructureLog. -/
def restructureETF (sectors : List String)
    (update_positions log_commission : Bool) : Except String (List Event) :=
  let trace := (sectors.map Event.getCurrentPrice) ++
    (sectors.map Event.updateWeightsCall) ++
    (if update_positions then [Event.updatePositions] else [])
  if log_commission then
    if kwargsBind restructureLog_params restructureETF_log_kwargs then
      .ok (trace ++ [Event.recordRestructureLog])
    else
      .error "TypeError: restructureLog got an unexpected keyword argument old_prices"
  else
    .ok trace

/-- Event trace of the steady-state (non-first-run) body of
Backtest.zipline_handle_data (lines 115-131): rebalance when the
rebalance trigger fired, then restructure when the restructure trigger
fired; nothing else runs on the step. -/
def zipline_handle_data_steady (sectors : List String)
    (rebalance_triggered restructure_triggered : Bool) :
    Except String (List Event) :=
  let t1 := if rebalance_triggered then rebalancePortfolio sectors true else []
  if restructure_triggered then
    match restructureETF sectors true true with
    | .ok t2 => .ok (t1 ++ t2)
    | .error e => .error e
  else
    .ok t1

/-- Events of a step outcome (none when the step raised). -/
def okEvents : Except String (List Event) → List Event
  | .ok t => t
  | .error _ => []

/-! Minimum-variance optimizer (portfolio/minvar.py). -/

/-- setf_lookback_window from cfg.py. -/
def setf_lookback_window : ℚ := 252

def rowMean (r : List ℚ) : ℚ := r.sum / (r.length : ℚ)

/-- np.cov on a rows-are-variables matrix: sample covariance with one
delta degree of freedom. -/
def npCov (m : List (List ℚ)) : List (List ℚ) :=
  m.map (fun ri => m.map (fun rj =>
    (List.zipWith (fun a b => (a - rowMean ri) * (b - rowMean rj)) ri rj).sum /
      ((ri.length : ℚ) - 1)))

/-- Covariance matrix of MinimumVariance.computeWeights line 54:
np.cov(log_rets) scaled by the lookback window length. -/
def covMat (log_rets : List (List ℚ)) : List (List ℚ) :=
  (npCov log_rets).map (fun row => row.map (fun c => c * setf_lookback_window))

/-- Result object of scipy.optimize.minimize as consumed by the code:
the solution vector `x` and the convergence flag `success`. -/
structure OptimizeResult where
  x : List ℚ
  success : Bool
deriving DecidableEq

/-- Python truthiness of a numpy array: empty arrays are falsy,
one-element arrays take the truth value of their entry, and arrays with
more than one element raise ValueError. -/
def npTruthy : List ℚ → Except String Bool
  | [] => .ok false
  | [q] => .ok (decide (q ≠ 0))
  | _ :: _ :: _ =>
    .error "ValueError: The truth value of an array with more than one element is ambiguous"

/-- Embedding of MinimumVariance.computeWeights (minvar.py lines 35-81).
The scipy solver and the Dirichlet draw are environment inputs, passed
as parameters.  The body computes the scaled covariance matrix, picks
the initial guess via the `if not prev_weights` test (Python truthiness
of the array), runs the solver, and returns the `x` field of the result;
the `success` flag is never consulted. -/
def computeWeights (solver : List (List ℚ) → List ℚ → OptimizeResult)
    (dirichlet_draw : List ℚ) (log_rets : List (List ℚ))
    (prev_weights : Option (List ℚ)) : Except String (List ℚ) :=
  let cov_mat := covMat log_rets
  let x0 : Except String (List ℚ) :=
    match prev_weights with
    | none => .ok dirichlet_draw
    | some w =>
      match npTruthy w with
      | .error e => .error e
      | .ok t => .ok (if t then w else dirichlet_draw)
  match x0 with
  | .error e => .error e
  | .ok g => .ok (solver cov_mat g).x

end ReIndexer
namespace ReIndexer

/-! Concrete inputs used by counterexamples and witnesses. -/

/-- Two-bar, two-ticker historical window whose second bar holds an
infinite price on a non-restructure date: the computed index levels are
finite then infinite, with no NaN anywhere. -/
def histInf : List (Date × List FVal) :=
  [(⟨1, 1, "Thursday"⟩, [FVal.fin 1, FVal.fin 2]),
   (⟨2, 1, "Friday"⟩, [FVal.inf, FVal.fin 1])]

/-- A solver outcome that reports non-convergence. -/
def failingSolver : List (List ℚ) → List ℚ → OptimizeResult :=
  fun _ _ => ⟨[2, 3], false⟩

/-- A solver that returns its initial guess, exposing which initial
guess computeWeights handed to the optimizer. -/
def echoSolver : List (List ℚ) → List ℚ → OptimizeResult :=
  fun _ g => ⟨g, true⟩

/-! Helper lemmas. -/

/-- The only call of Bookkeeping.restructureLog binds keyword old_prices,
which is not among the parameters of restructureLog, so the logging branch of
Backtest.restructureETF is a TypeError. -/
theorem restructure_log_call_fails (sectors : List String) (up : Bool) :
    restructureETF sectors up true =
      .error "TypeError: restructureLog got an unexpected keyword argument old_prices" := by
  have hk : kwargsBind restructureLog_params restructureETF_log_kwargs = false := rfl
  unfold restructureETF
  rw [hk]
  simp

/-- Once the wildcard rebalance trigger has fired in a month, every later
evaluation in that same month returns false and leaves the state
unchanged. -/
theorem runRebalance_after_wildcard_fire (m : Nat) (ds : List Date) (u : Utilities)
    (hm : ∀ d ∈ ds, d.month = m ∧ d.weekday ≠ "*")
    (hu : u.last_month_rebalance = m) :
    runRebalance ⟨"*", 1⟩ u ds = List.replicate ds.length false := by
  induction ds generalizing u with
  | nil => rfl
  | cons d ds ih =>
    obtain ⟨hdm, hdw⟩ := hm d (List.mem_cons_self d ds)
    have hstep : isRebalanceTriggered ⟨"*", 1⟩ u d = (false, u) := by
      unfold isRebalanceTriggered
      by_cases h : (1 - 1) * 7 < d.day ∧ d.day ≤ 1 * 7
      · rw [if_pos h, if_neg (fun hc => hc.2 (by rw [hu, hdm]))]
        rw [beq_eq_false_iff_ne.mpr hdw]
      · rw [if_neg h]
    unfold runRebalance
    rw [hstep, List.length_cons, List.replicate_succ]
    exact congrArg (List.cons false)
      (ih u (fun d' hd' => hm d' (List.mem_cons_of_mem d hd')) hu)

/-- Sum of an elementwise division. -/
theorem list_sum_map_div (l : List ℚ) (c : ℚ) :
    (l.map (fun p => p / c)).sum = l.sum / c := by
  induction l with
  | nil => simp
  | cons x xs ih => simp [ih, add_div]

/-- Float sum of an all-finite list is the finite rational sum. -/
theorem fval_sum_map_fin (l : List ℚ) :
    FVal.sum (l.map FVal.fin) = FVal.fin l.sum := by
  have key : ∀ (l : List ℚ) (a : ℚ),
      (l.map FVal.fin).foldl FVal.add (FVal.fin a) = FVal.fin (a + l.sum) := by
    intro l
    induction l with
    | nil => intro a; simp
    | cons x xs ih =>
      intro a
      simp only [List.map_cons, List.foldl_cons, List.sum_cons]
      rw [show FVal.add (FVal.fin a) (FVal.fin x) = FVal.fin (a + x) from rfl, ih]
      ring_nf
  simpa using key l 0

/-- On an all-finite row with nonzero sum, the per-bar float reweight of
updateParameters agrees with the rational updateWeights computation. -/
theorem reweight_map_fin (l : List ℚ) (h : l.sum ≠ 0) :
    reweight (l.map FVal.fin) = (updateWeights l).map FVal.fin := by
  unfold reweight updateWeights
  rw [fval_sum_map_fin, List.map_map, List.map_map]
  refine List.map_congr_left ?_
  intro a _
  show FVal.div (FVal.fin a) (FVal.fin l.sum) = FVal.fin (a / l.sum)
  rw [show FVal.div (FVal.fin a) (FVal.fin l.sum) =
    if l.sum = 0 then (if a = 0 then FVal.nan else if 0 < a then FVal.inf else FVal.ninf)
    else FVal.fin (a / l.sum) from rfl, if_neg h]

/-! Claim theorems. -/

/-- Claim C1 (code bug): the spec says a restructure event snapshots the
old component weights of each sector before updateWeights and then logs the
per-sector restructure turnover.  The code instead snapshots old ETF
prices and passes them to Bookkeeping.restructureLog under the keyword
old_prices, which is not a parameter of restructureLog, so every
steady-state restructure step with logging enabled raises TypeError and
never logs any turnover. -/
theorem claim_C1_restructure_logging_raises_TypeError
    (sectors : List String) (up r1 : Bool) :
    restructureETF sectors up true =
      .error "TypeError: restructureLog got an unexpected keyword argument old_prices" ∧
    zipline_handle_data_steady sectors r1 true =
      .error "TypeError: restructureLog got an unexpected keyword argument old_prices" := by
  refine ⟨restructure_log_call_fails sectors up, ?_⟩
  cases r1 <;>
    simp [zipline_handle_data_steady, restructure_log_call_fails sectors true]

/-- Claim C2 (code bug): the spec says a steady-state rebalance snapshots
old portfolio weights and logs rebalance turnover; the rebalancePortfolio
of the code never calls Bookkeeping.rebalanceLog (the method is
dead code), so no rebalance-turnover record is ever emitted on any
simulated step. -/
theorem claim_C2_rebalance_turnover_never_logged
    (sectors : List String) (up r1 r2 : Bool) :
    decide (Event.recordRebalanceLog ∈ rebalancePortfolio sectors up) = false ∧
    decide (Event.recordRebalanceLog ∈
      okEvents (zipline_handle_data_steady sectors r1 r2)) = false := by
  constructor
  · exact decide_eq_false (by cases up <;> simp [rebalancePortfolio])
  · refine decide_eq_false ?_
    cases r2 with
    | false =>
      cases r1 <;> simp [zipline_handle_data_steady, okEvents, rebalancePortfolio]
    | true =>
      simp [zipline_handle_data_steady, restructure_log_call_fails sectors true, okEvents]

/-- Claim C3 (code bug): the spec requires every turnover field not
produced on a step to be emitted as zero on that step; the method
Bookkeeping.cleanLog (which would record the zeros) is never called by
zipline_handle_data, and a steady-state step with no event emits no
record at all. -/
theorem claim_C3_clean_zeroing_never_emitted
    (sectors : List String) (r1 r2 : Bool) :
    decide (Event.recordCleanLog ∈
      okEvents (zipline_handle_data_steady sectors r1 r2)) = false ∧
    zipline_handle_data_steady sectors false false = .ok [] := by
  refine ⟨decide_eq_false ?_, rfl⟩
  cases r2 with
  | false =>
    cases r1 with
    | false => simp [zipline_handle_data_steady, okEvents]
    | true => simp [zipline_handle_data_steady, okEvents, rebalancePortfolio]
  | true =>
    simp [zipline_handle_data_steady, restructure_log_call_fails sectors true, okEvents]

end ReIndexer
namespace ReIndexer

/-- Claim C4 counterexample: a solver outcome with success = false is
returned by computeWeights as a normal weight vector, not surfaced as an
error. -/
theorem claim_C4_counterexample :
    (failingSolver (covMat [[0, 0], [0, 0]]) [1, 0]).success = false ∧
    computeWeights failingSolver [1, 0] [[0, 0], [0, 0]] none = .ok [2, 3] :=
  ⟨rfl, rfl⟩

/-- Claim C4 amended: computeWeights returns the x field of the solver result
unconditionally; the success flag is never inspected, so solver failure
is not surfaced to the caller. -/
theorem claim_C4_amended (solver : List (List ℚ) → List ℚ → OptimizeResult)
    (draw : List ℚ) (log_rets : List (List ℚ)) :
    computeWeights solver draw log_rets none =
      .ok ((solver (covMat log_rets) draw).x) :=
  rfl

/-- Claim C5 counterexample: a historical window producing an infinite
(hence non-finite) index level with no NaN completes updateParameters
normally instead of raising the data-integrity error. -/
theorem claim_C5_counterexample :
    (updateParameters (fun _ => 0) ⟨"Friday", 3⟩ ⟨0, 0⟩ histInf).isOk = true ∧
    (setfPricesOf ⟨"Friday", 3⟩ ⟨0, 0⟩ histInf).any (fun p => !p.isFinite) = true := by
  constructor
  · norm_num [updateParameters, setfPricesOf, histInf, fillna, transposeT, bfillCol,
      ffillCol, ffillFrom, setfWalk, isRestructureTriggered, reweight, FVal.sum,
      FVal.dot, FVal.mul, FVal.add, FVal.div, FVal.isNan, Except.isOk, Except.toBool]
  · norm_num [setfPricesOf, histInf, fillna, transposeT, bfillCol, ffillCol, ffillFrom,
      setfWalk, isRestructureTriggered, reweight, FVal.sum, FVal.dot, FVal.mul,
      FVal.add, FVal.div, FVal.isFinite]

/-- Claim C5 amended: updateParameters raises the data-integrity error
if and only if some computed index level is NaN (the np.isnan check);
infinite levels are not detected.  Otherwise it completes, binding the
log-return series, the period log return, and the variance. -/
theorem claim_C5_amended (flog : ℚ → ℚ) (spec : TriggerSpec) (u : Utilities)
    (hist : List (Date × List FVal)) :
    ((∃ e, updateParameters flog spec u hist = .error e) ↔
      ∃ p ∈ setfPricesOf spec u hist, p.isNan = true) ∧
    ((∀ p ∈ setfPricesOf spec u hist, p.isNan = false) →
      updateParameters flog spec u hist = .ok
        { setf_prices := setfPricesOf spec u hist,
          log_rets := diffF ((setfPricesOf spec u hist).map (FVal.log flog)),
          period_log_ret :=
            FVal.sum (diffF ((setfPricesOf spec u hist).map (FVal.log flog))),
          variance := varF (diffF ((setfPricesOf spec u hist).map (FVal.log flog))) }) := by
  have key : updateParameters flog spec u hist =
      if (setfPricesOf spec u hist).any FVal.isNan then
        (.error "NA values detected in Synthetic ETF prices" : Except String ETFParams)
      else .ok
        { setf_prices := setfPricesOf spec u hist,
          log_rets := diffF ((setfPricesOf spec u hist).map (FVal.log flog)),
          period_log_ret :=
            FVal.sum (diffF ((setfPricesOf spec u hist).map (FVal.log flog))),
          variance := varF (diffF ((setfPricesOf spec u hist).map (FVal.log flog))) } := rfl
  cases hb : (setfPricesOf spec u hist).any FVal.isNan with
  | true =>
    rw [key, hb]
    constructor
    · refine iff_of_true ⟨"NA values detected in Synthetic ETF prices", by simp⟩ ?_
      simpa using List.any_eq_true.mp hb
    · intro hall
      obtain ⟨p, hp, hnan⟩ := List.any_eq_true.mp hb
      rw [hall p hp] at hnan
      exact absurd hnan (by simp)
  | false =>
    rw [key, hb]
    constructor
    · refine iff_of_false ?_ ?_
      · rintro ⟨e, he⟩
        simp at he
      · rintro ⟨p, hp, hnan⟩
        have := List.any_eq_false.mp hb p hp
        rw [hnan] at this
        exact this rfl
    · intro _
      simp
  
/-- Claim C5 amended, witness: on the concrete no-NaN window histInf the
amended theorem yields normal completion. -/
theorem claim_C5_amended_witness :
    updateParameters (fun _ => 0) ⟨"Friday", 3⟩ ⟨0, 0⟩ histInf = .ok
      { setf_prices := setfPricesOf ⟨"Friday", 3⟩ ⟨0, 0⟩ histInf,
        log_rets := diffF ((setfPricesOf ⟨"Friday", 3⟩ ⟨0, 0⟩ histInf).map
          (FVal.log (fun _ => 0))),
        period_log_ret := FVal.sum (diffF ((setfPricesOf ⟨"Friday", 3⟩ ⟨0, 0⟩
          histInf).map (FVal.log (fun _ => 0)))),
        variance := varF (diffF ((setfPricesOf ⟨"Friday", 3⟩ ⟨0, 0⟩ histInf).map
          (FVal.log (fun _ => 0)))) } :=
  (claim_C5_amended (fun _ => 0) ⟨"Friday", 3⟩ ⟨0, 0⟩ histInf).2 (by
    have h : setfPricesOf ⟨"Friday", 3⟩ ⟨0, 0⟩ histInf = [FVal.fin (5/3), FVal.inf] := by
      norm_num [setfPricesOf, histInf, fillna, transposeT, bfillCol, ffillCol, ffillFrom,
        setfWalk, isRestructureTriggered, reweight, FVal.sum, FVal.dot, FVal.mul,
        FVal.add, FVal.div]
    rw [h]
    intro p hp
    rcases List.mem_cons.mp hp with rfl | hp2
    · rfl
    · rcases List.mem_cons.mp hp2 with rfl | hp3
      · rfl
      · exact absurd hp3 (List.not_mem_nil p))

end ReIndexer
namespace ReIndexer

/-- Claim C6: with trigger spec week 1 and wildcard day, starting from a
state whose stored last-fired rebalance month differs from the evaluated
month, evaluating isRebalanceTriggered on every date of that month in
ascending order returns true exactly once, on the first evaluated date
(whose day-of-month is 1, inside 1..7), and false on every other date. -/
theorem claim_C6_wildcard_fires_once (m n : Nat) (w : Nat → String) (u : Utilities)
    (hn : 1 ≤ n) (hw : ∀ i, w i ≠ "*") (hu : u.last_month_rebalance ≠ m) :
    runRebalance ⟨"*", 1⟩ u ((List.range n).map (fun i => ⟨i + 1, m, w i⟩)) =
      true :: List.replicate (n - 1) false := by
  obtain ⟨k, rfl⟩ : ∃ k, n = k + 1 := ⟨n - 1, by omega⟩
  rw [List.range_succ_eq_map]
  simp only [List.map_cons, List.map_map]
  have hfirst : isRebalanceTriggered ⟨"*", 1⟩ u ⟨0 + 1, m, w 0⟩ =
      (true, { u with last_month_rebalance := m }) := by
    unfold isRebalanceTriggered
    rw [if_pos ⟨by simp, by simp⟩, if_pos ⟨by decide, hu⟩]
  unfold runRebalance
  rw [hfirst, Nat.add_sub_cancel]
  refine congrArg (List.cons true) ?_
  have hmm : ∀ d ∈ (List.range k).map ((fun i : Nat => (⟨i + 1, m, w i⟩ : Date)) ∘ Nat.succ),
      d.month = m ∧ d.weekday ≠ "*" := by
    intro d hd
    simp only [List.mem_map, Function.comp] at hd
    obtain ⟨i, _, rfl⟩ := hd
    exact ⟨rfl, hw _⟩
  have h := runRebalance_after_wildcard_fire m _ { u with last_month_rebalance := m } hmm rfl
  simpa using h

/-- Claim C6 witness: a fresh scheduler state over the first three days
of month 5 fires exactly on day 1. -/
theorem claim_C6_wildcard_fires_once_witness :
    runRebalance ⟨"*", 1⟩ ⟨0, 0⟩
      ((List.range 3).map (fun i => ⟨i + 1, 5, "Monday"⟩)) =
      true :: List.replicate 2 false :=
  claim_C6_wildcard_fires_once 5 3 (fun _ => "Monday") ⟨0, 0⟩ (by decide)
    (fun _ => (by decide : ("Monday" : String) ≠ "*")) (by decide)

/-- Claim C7: with trigger spec week 3 and day Friday, the restructure
trigger fires exactly on Fridays whose day-of-month lies in 15..21, for
every scheduler state, and a date outside that window leaves the
scheduler state unchanged. -/
theorem claim_C7_third_friday_window (s : Utilities) (d : Date) :
    (isRestructureTriggered ⟨"Friday", 3⟩ s d).1 =
      (d.weekday == "Friday" && decide (15 ≤ d.day) && decide (d.day ≤ 21)) ∧
    (d.day < 15 ∨ 21 < d.day → (isRestructureTriggered ⟨"Friday", 3⟩ s d).2 = s) := by
  unfold isRestructureTriggered
  by_cases h : (3 - 1) * 7 < d.day ∧ d.day ≤ 3 * 7
  · rw [if_pos h, if_neg (fun hc => absurd hc.1 (by decide))]
    have h15 : decide (15 ≤ d.day) = true := by simp; omega
    have h21 : decide (d.day ≤ 21) = true := by simp; omega
    exact ⟨by rw [h15, h21, Bool.and_true, Bool.and_true], fun _ => rfl⟩
  · rw [if_neg h]
    refine ⟨?_, fun _ => rfl⟩
    have : decide (15 ≤ d.day) = false ∨ decide (d.day ≤ 21) = false := by
      rcases Nat.lt_or_ge d.day 15 with hl | hg
      · left; simp; omega
      · right; simp; omega
    rcases this with h' | h' <;> simp [h']

/-- Claim C7 witness: a Friday on day 22 (outside the window) does not
fire and leaves the scheduler state untouched. -/
theorem claim_C7_third_friday_window_witness :
    (isRestructureTriggered ⟨"Friday", 3⟩ ⟨7, 7⟩ ⟨22, 5, "Friday"⟩).1 = false ∧
    (isRestructureTriggered ⟨"Friday", 3⟩ ⟨7, 7⟩ ⟨22, 5, "Friday"⟩).2 = ⟨7, 7⟩ :=
  ⟨((claim_C7_third_friday_window ⟨7, 7⟩ ⟨22, 5, "Friday"⟩).1).trans (by decide),
   (claim_C7_third_friday_window ⟨7, 7⟩ ⟨22, 5, "Friday"⟩).2 (Or.inr (by decide))⟩

/-- Claim C8: for component prices that are nonnegative with strictly
positive sum, the allocation weights computed by updateWeights are
nonnegative and sum to 1 within tolerance 1e-9 (exactly, in fact), and
the per-bar float reweight inside updateParameters produces exactly the
same weight vector, so the same bounds hold for it. -/
theorem claim_C8_weights_simplex (prices : List ℚ)
    (hpos : ∀ p ∈ prices, 0 ≤ p) (hsum : 0 < prices.sum) :
    (∀ w ∈ updateWeights prices, 0 ≤ w) ∧
    |(updateWeights prices).sum - 1| ≤ 1 / 10 ^ 9 ∧
    reweight (prices.map FVal.fin) = (updateWeights prices).map FVal.fin := by
  refine ⟨?_, ?_, reweight_map_fin prices (ne_of_gt hsum)⟩
  · intro x hx
    simp only [updateWeights, List.mem_map] at hx
    obtain ⟨p, hp, rfl⟩ := hx
    exact div_nonneg (hpos p hp) (le_of_lt hsum)
  · have hone : (updateWeights prices).sum = 1 := by
      unfold updateWeights
      rw [list_sum_map_div, div_self (ne_of_gt hsum)]
    rw [hone]
    norm_num

/-- Claim C8 witness: concrete prices 1 and 3 give weights summing to 1
within tolerance. -/
theorem claim_C8_weights_simplex_witness :
    |(updateWeights [1, 3]).sum - 1| ≤ 1 / 10 ^ 9 :=
  (claim_C8_weights_simplex [1, 3]
    (by intro p hp; rcases List.mem_cons.mp hp with rfl | hp2
        · norm_num
        · rcases List.mem_cons.mp hp2 with rfl | hp3
          · norm_num
          · exact absurd hp3 (List.not_mem_nil p))
    (by norm_num)).2.1

/-- Claim C9: updateWeights is a function of the current prices only, so
calling it twice with identical prices returns the same weight vector,
and the second call leaves the stored allocation weights equal to the
result of the first call. -/
theorem claim_C9_updateWeights_idempotent (s : ETFState) (prices : List ℚ) :
    (ETFState.updateWeightsS (s.updateWeightsS prices).1 prices).2 =
      (s.updateWeightsS prices).2 ∧
    (ETFState.updateWeightsS (s.updateWeightsS prices).1 prices).1.alloc_weights =
      (s.updateWeightsS prices).1.alloc_weights :=
  ⟨rfl, rfl⟩

/-- Claim C10 counterexample: a one-element nonzero prev_weights array
(neither omitted nor empty) reaches the warm-start path (echoSolver
returns the initial guess it was handed, which is the supplied [2], not
the Dirichlet draw [7]); so the warm-start path is not only reachable
when prev_weights is omitted or empty. -/
theorem claim_C10_counterexample :
    computeWeights echoSolver [7] [[1, 2], [3, 4]] (some [2]) = .ok [2] ∧
    computeWeights echoSolver [7] [[1, 2], [3, 4]] none = .ok [7] := by
  constructor
  · norm_num [computeWeights, npTruthy, echoSolver]
  · rfl

/-- Claim C10 amended: prev_weights arrays with two or more elements
raise ValueError from the ill-defined numpy truthiness test; the
supplied-weights warm start is reached exactly for one-element arrays
with a nonzero entry, while empty or omitted prev_weights fall back to
the fresh Dirichlet draw. -/
theorem claim_C10_amended (solver : List (List ℚ) → List ℚ → OptimizeResult)
    (draw : List ℚ) (log_rets : List (List ℚ)) :
    (∀ w : List ℚ, 2 ≤ w.length →
      computeWeights solver draw log_rets (some w) =
        .error "ValueError: The truth value of an array with more than one element is ambiguous") ∧
    (∀ q : ℚ, q ≠ 0 →
      computeWeights solver draw log_rets (some [q]) =
        .ok ((solver (covMat log_rets) [q]).x)) ∧
    computeWeights solver draw log_rets (some []) =
      .ok ((solver (covMat log_rets) draw).x) ∧
    computeWeights solver draw log_rets none =
      .ok ((solver (covMat log_rets) draw).x) := by
  refine ⟨?_, ?_, rfl, rfl⟩
  · intro w hw
    match w, hw with
    | a :: b :: t, _ => rfl
  · intro q hq
    have ht : npTruthy [q] = .ok true := by simp [npTruthy, hq]
    simp [computeWeights, ht]

/-- Claim C10 amended, witness: a length-2 array raises and a one-element
nonzero array warm-starts. -/
theorem claim_C10_amended_witness :
    computeWeights echoSolver [7] [[1, 2]] (some [2, 5]) =
      .error "ValueError: The truth value of an array with more than one element is ambiguous" ∧
    computeWeights echoSolver [7] [[1, 2]] (some [3]) =
      .ok ((echoSolver (covMat [[1, 2]]) [3]).x) :=
  ⟨(claim_C10_amended echoSolver [7] [[1, 2]]).1 [2, 5] (by decide),
   (claim_C10_amended echoSolver [7] [[1, 2]]).2.1 3 (by norm_num)⟩

end ReIndexer
